import Mathlib

/-!
Verification of the RAG orchestration pipeline of the `rag_model` repository:
the chunking/indexing contract (`src/pinecone/main.py`), the context-selection
heuristic and chat orchestration (`src/fastapi/main.py`), and the cross-store
consistency invariant between the document store and the vector index.

Conventions of the embedding:
* Python strings are Lean `String`s; where character-level work is needed
  (lower-casing, substring tests) we pass through `String.data : List Char`.
* The vector index is a list of `(namespace, record)` pairs; `upsert` is
  insert-or-overwrite keyed by `(namespace, _id)`, `delete` removes by id list.
* The document store (MongoDB `files` collection) is a list of file records.
* Remote collaborators (search, LLM, delete acceptance, log write) are
  parameters: oracles or booleans supplied to the embedded functions, so a
  theorem can quantify over every collaborator behaviour.
* Fallible paths return `Except String _`; an uncaught Python exception is an
  `Except.error`.
-/

namespace RagModel

/-! ## Chunker

Modelled from the spec: the splitter used by `upload_text_to_pinecone` is
langchain's `RecursiveCharacterTextSplitter(chunk_size=1024, chunk_overlap=50,
add_start_index=True)`, whose implementation is not part of this repository.
Following the spec (§4.1), it splits text into overlapping fixed-size segments
of at most `maxLen` characters, consecutive segments overlapping by `overlap`
characters, each segment carrying its starting character offset; it is
deterministic and maps empty input to the empty sequence.  We model it as the
stride-`maxLen - overlap` sliding window over the character list. -/

/-- One pass of the sliding-window chunker: emit the window of width `maxLen`
at `pos`, advance by `stride`, stop past the end.  `fuel` bounds recursion. -/
def chunkAux (maxLen stride : Nat) (text : List Char) : Nat → Nat → List (List Char × Nat)
  | 0, _ => []
  | fuel + 1, pos =>
    if pos < text.length then
      ((text.drop pos).take maxLen, pos) :: chunkAux maxLen stride text fuel (pos + stride)
    else []

/-- Modelled from the spec: `split(text)` of the Chunker (§4.1) with maximum
segment length `maxLen` and overlap `overlap`; returns `(content, start_index)`
pairs. -/
def chunkText (maxLen overlap : Nat) (text : List Char) : List (List Char × Nat) :=
  chunkAux maxLen (maxLen - overlap) text text.length 0

/-! ## Vector index model -/

/-- A chunk record as built by `upload_text_to_pinecone` (one element of
`records_to_upsert`). -/
structure ChunkRecord where
  id : String
  chunk_text : String
  category : String
  filename : String
  chunk_index : Nat
  start_index : Nat
deriving DecidableEq, Repr

/-- The vector index: each entry is a record together with the namespace it
lives in. -/
abbrev PineconeState := List (String × ChunkRecord)

/-- Upsert one record into a namespace: overwrite the entry with the same
`(namespace, id)` key if present, append otherwise. -/
def upsertOne (st : PineconeState) (ns : String) (r : ChunkRecord) : PineconeState :=
  if st.any (fun p => p.1 == ns && p.2.id == r.id) then
    st.map (fun p => if p.1 == ns && p.2.id == r.id then (ns, r) else p)
  else
    st ++ [(ns, r)]

/-- `index.upsert_records(namespace, batch)`. -/
def upsertBatch (st : PineconeState) (ns : String) (batch : List ChunkRecord) : PineconeState :=
  batch.foldl (fun s r => upsertOne s ns r) st

/-- `index.delete(ids=..., namespace=...)`: drop every entry of the namespace
whose id is in the list. -/
def deleteIds (st : PineconeState) (ns : String) (ids : List String) : PineconeState :=
  st.filter (fun p => !(p.1 == ns && ids.contains p.2.id))

/-! ## Indexer: upload -/

/-- The namespace `upload_text_to_pinecone` upserts into:
`os.getenv("PINECONE_NAMESPACE", "")`, replaced by `"default"` when empty.
The `category` argument plays no part (main.py lines 68-70). -/
def uploadNamespace (env : String) : String :=
  if env = "" then "default" else env

/-- The records built in the `for i, chunk in enumerate(chunks)` loop
(main.py lines 106-117). -/
def mkRecords (filename category : String) (chunks : List (List Char × Nat)) : List ChunkRecord :=
  chunks.enum.map fun ic =>
    { id := filename ++ "_" ++ toString ic.1
      chunk_text := String.mk ic.2.1
      category := category
      filename := filename
      chunk_index := ic.1
      start_index := ic.2.2 }

/-- The batch slicing `records[i:i+batch_size]` for `i in range(0, len, batch_size)`
(main.py lines 122-127), by fuel on the list length. -/
def batchAux (bs : Nat) : Nat → List ChunkRecord → List (List ChunkRecord)
  | 0, _ => []
  | _, [] => []
  | fuel + 1, l => l.take bs :: batchAux bs fuel (l.drop bs)

/-- Split the record list into consecutive batches of size at most `bs`. -/
def batchRecords (bs : Nat) (l : List ChunkRecord) : List (List ChunkRecord) :=
  batchAux bs l.length l

/-- Everything observable about one `upload_text_to_pinecone` call. -/
structure UploadOutcome where
  newState : PineconeState
  count : Nat
  namespaceUsed : String
  records : List ChunkRecord
  batches : List (List ChunkRecord)
deriving Repr

/-- `upload_text_to_pinecone(filename, text, category)` (main.py lines 52-130):
chunk the text, build records, upsert them in batches of 100 into the
namespace derived from the `PINECONE_NAMESPACE` environment value `env`,
return the record count. -/
def upload_text_to_pinecone (st : PineconeState) (filename text category env : String) :
    UploadOutcome :=
  let ns := uploadNamespace env
  let chunks := chunkText 1024 50 text.data
  let records := mkRecords filename category chunks
  let batches := batchRecords 100 records
  { newState := batches.foldl (fun s b => upsertBatch s ns b) st
    count := records.length
    namespaceUsed := ns
    records := records
    batches := batches }

/-! ## Indexer: delete -/

/-- The namespace `delete_file_from_pinecone` deletes from (main.py lines
139-141): the category unless it is the literal `"None"`, else the
environment value, `"default"` when the result is empty. -/
def deleteNamespace (category env : String) : String :=
  let ns := if category ≠ "None" then category else env
  if ns = "" then "default" else ns

/-- The dictionary returned by `delete_file_from_pinecone`, plus the id list
actually submitted to the index (empty when no delete call was made). -/
structure DeleteOutcome where
  deleted : Bool
  countAttempted : Nat
  namespaceUsed : String
  idsSubmitted : List String
deriving DecidableEq, Repr

/-- `delete_file_from_pinecone(filename, num_chunks, category)` (main.py lines
132-169).  `indexExists` models `pc.has_index`, `accepted` models whether
`index.delete` returns normally or raises. -/
def delete_file_from_pinecone (st : PineconeState) (filename : String) (numChunks : Nat)
    (category env : String) (indexExists accepted : Bool) :
    PineconeState × DeleteOutcome :=
  let ns := deleteNamespace category env
  if !indexExists then
    (st, { deleted := false, countAttempted := 0, namespaceUsed := ns, idsSubmitted := [] })
  else
    let ids := (List.range numChunks).map fun i => filename ++ "_" ++ toString i
    if accepted then
      (deleteIds st ns ids,
       { deleted := true, countAttempted := ids.length, namespaceUsed := ns, idsSubmitted := ids })
    else
      (st, { deleted := false, countAttempted := ids.length, namespaceUsed := ns,
             idsSubmitted := ids })

/-! ## Context Selector (`get_context`, fastapi/main.py lines 84-100) -/

/-- One search hit: the code only ever reads `hits[i]['fields']['chunk_text']`. -/
structure Hit where
  chunk_text : String
deriving DecidableEq, Repr

/-- A search collaborator: given the invocation number (0-based, counted per
request) and the query text, either raises or returns the hit list. -/
def SearchOracle := Nat → String → Except String (List Hit)

/-- `user_input.lower()` as a character list. -/
def lowerData (s : String) : List Char :=
  s.data.map Char.toLower

/-- Python `needle in hay` at the start: `needle` is a prefix of `hay`. -/
def listIsPrefix : List Char → List Char → Bool
  | [], _ => true
  | _ :: _, [] => false
  | a :: n, b :: h => a == b && listIsPrefix n h

/-- Python substring containment `needle in hay`. -/
def listContains (needle : List Char) : List Char → Bool
  | [] => needle.isEmpty
  | c :: rest => listIsPrefix needle (c :: rest) || listContains needle rest

/-- The trigger keyword list of `get_context`: `keywords = ['rag','RAG']`. -/
def keywords : List String := ["rag", "RAG"]

/-- The `for word in keywords` loop of `get_context`: on the first keyword
contained in the lowered input, perform the search and return
`hits[0]['fields']['chunk_text']`; an empty hit list raises (Python
IndexError); if no keyword matches, return `None`.  The boolean reports
whether the search call was issued. -/
def getContextLoop (search : String → Except String (List Hit)) (input : String) :
    List String → Except String (Option String) × Bool
  | [] => (.ok none, false)
  | w :: ws =>
    if listContains w.data (lowerData input) then
      match search input with
      | .error e => (.error e, true)
      | .ok [] => (.error "IndexError: list index out of range", true)
      | .ok (h :: _) => (.ok (some h.chunk_text), true)
    else getContextLoop search input ws

/-- `get_context(user_input)` with instrumentation: `k` is the number of
search invocations already made in this request; returns the outcome and the
list of queries this call sent to the index. -/
def get_context (search : SearchOracle) (k : Nat) (input : String) :
    Except String (Option String) × List String :=
  match getContextLoop (search k) input keywords with
  | (r, true) => (r, [input])
  | (r, false) => (r, [])

/-! ## Chat orchestration (`post_chat`, fastapi/main.py lines 493-513) -/

/-- One conversation turn (`Content`): a role and the `parts` texts. -/
structure Turn where
  role : String
  parts : List String
deriving DecidableEq, Repr

/-- The language-model collaborator `get_response_from_llm(contents, context)`,
abstracted to the response text it produces. -/
def LlmOracle := List Turn → Option String → String

/-- What a completed `/chat` request leaves behind: the returned conversation,
the queries sent to the vector index (in order), and the chat-log store. -/
structure ChatOutcome where
  conv : List Turn
  queries : List String
  chatLog : List (String × String)
deriving DecidableEq, Repr

/-- The context-acquisition phase of `post_chat` (fastapi/main.py lines
495-499): `context = None; if get_context(u): context = get_context(u)`.
`get_context` is called once for the truthiness test and, when that result is
truthy (a non-empty string), a second time to bind the context; an exception
from either call propagates.  Also returns the queries sent to the index. -/
def chatContext (search : SearchOracle) (userInput : String) :
    Except String (Option String × List String) :=
  match get_context search 0 userInput with
  | (.error e, _) => .error e
  | (.ok o1, q1) =>
    let truthy : Bool := match o1 with
      | some s => !(s == "")
      | none => false
    if truthy then
      match get_context search q1.length userInput with
      | (.error e, _) => .error e
      | (.ok o2, q2) => .ok (o2, q1 ++ q2)
    else .ok (none, q1)

/-- `post_chat(request)` (fastapi/main.py lines 493-513).  `logOk` models
whether `add_chat_log_entry`'s insert succeeds (its exceptions are swallowed
and it returns a boolean, lines 234-252); `log` is the chat-log collection.
The latest user text is `request.prompt[-1].parts[0].text`; one assistant
turn holding the model response is appended to the conversation and the
chat-log write outcome is ignored. -/
def post_chat (search : SearchOracle) (llm : LlmOracle) (logOk : Bool)
    (prompt : List Turn) (log : List (String × String)) : Except String ChatOutcome :=
  match prompt.getLast? with
  | none => .error "IndexError: prompt is empty"
  | some lastTurn =>
    match lastTurn.parts.head? with
    | none => .error "IndexError: parts is empty"
    | some userInput =>
      match chatContext search userInput with
      | .error e => .error e
      | .ok (context, qs) =>
        let resp := llm prompt context
        let conv := prompt ++ [{ role := "assistant", parts := [resp] }]
        let newLog := if logOk then log ++ [(userInput, resp)] else log
        .ok { conv := conv, queries := qs, chatLog := newLog }

/-! ## Document store and upload/delete endpoints (fastapi/main.py) -/

/-- A document record in the MongoDB `files` collection (`FileRecord`). -/
structure FileRec where
  title : String
  content : String
  category : String
  date : String
  num_chunks : Nat
deriving DecidableEq, Repr

/-- The two external stores together. -/
structure SysState where
  mongo : List FileRec
  pinecone : PineconeState
deriving DecidableEq, Repr

/-- An `HTTPException`: status code and detail. -/
structure HttpErr where
  status : Nat
  detail : String
deriving DecidableEq, Repr

/-- The body of `UploadFileResponse`. -/
structure UploadResp where
  title : String
  num_chunks : Nat
  pinecone_status : String
  mongo_status : String
deriving DecidableEq, Repr

/-- Python `str.strip()`: drop leading and trailing whitespace. -/
def pyStrip (s : String) : List Char :=
  ((s.data.dropWhile Char.isWhitespace).reverse.dropWhile Char.isWhitespace).reverse

/-- `upload_text_with_metadata` (fastapi/main.py lines 266-325): validate the
three fields, run the Pinecone upload, then `add_file_record`, which raises a
409 when the title already exists (lines 157-186).  The Pinecone upsert has
already mutated the index by the time the 409 is raised, so the state is
returned alongside the HTTP outcome. -/
def upload_text_with_metadata (st : SysState) (title content category env today : String) :
    Except HttpErr UploadResp × SysState :=
  if (pyStrip title).isEmpty then
    (.error { status := 400, detail := "Title cannot be empty." }, st)
  else if (pyStrip content).isEmpty then
    (.error { status := 400, detail := "Content cannot be empty." }, st)
  else if (pyStrip category).isEmpty then
    (.error { status := 400, detail := "Category cannot be empty." }, st)
  else
    let up := upload_text_to_pinecone st.pinecone title content category env
    let st1 : SysState := { st with pinecone := up.newState }
    if st.mongo.any (fun r => r.title == title) then
      (.error { status := 409,
                detail := "Note with title '" ++ title ++ "' already exists in MongoDB." },
       st1)
    else
      (.ok { title := title, num_chunks := up.count,
             pinecone_status := "Success", mongo_status := "Success" },
       { st1 with
           mongo := st1.mongo ++
             [{ title := title, content := content, category := category,
                date := today, num_chunks := up.count }] })

/-- The body of `DeleteResult`. -/
structure DeleteResp where
  title : String
  deleted_mongo : Bool
  deleted_pinecone : Bool
deriving DecidableEq, Repr

/-- `files_collection.delete_one({"title": title})`: remove the first match. -/
def eraseFirstByTitle (title : String) : List FileRec → List FileRec
  | [] => []
  | r :: rs => if r.title == title then rs else r :: eraseFirstByTitle title rs

/-- `delete_file_and_vectors` (fastapi/main.py lines 327-380): 404 when the
title has no record; otherwise delete from Pinecone with the stored
`num_chunks`/`category`, then delete the Mongo record. -/
def delete_file_and_vectors (st : SysState) (title env : String)
    (indexExists accepted : Bool) : Except HttpErr DeleteResp × SysState :=
  match st.mongo.find? (fun r => r.title == title) with
  | none =>
    (.error { status := 404, detail := "Note '" ++ title ++ "' not found in MongoDB." }, st)
  | some rec =>
    let pcOut := delete_file_from_pinecone st.pinecone title rec.num_chunks rec.category env
      indexExists accepted
    let mongoRest := eraseFirstByTitle title st.mongo
    let mongoDeleted := st.mongo.any (fun r => r.title == title)
    (.ok { title := title, deleted_mongo := mongoDeleted, deleted_pinecone := pcOut.2.deleted },
     { mongo := mongoRest, pinecone := pcOut.1 })

/-! ## The cross-store consistency invariant (spec §3) -/

/-- Number of chunk records in namespace `ns` whose id starts with
`title ++ "_"`. -/
def countChunksWithPrefix (pc : PineconeState) (ns title : String) : Nat :=
  (pc.filter (fun p => p.1 == ns && listIsPrefix (title ++ "_").data p.2.id.data)).length

/-- The invariant of spec §3: every document record's `num_chunks` equals the
number of chunk records under its derived id prefix in its category's
namespace. -/
def crossStoreInvariant (st : SysState) : Bool :=
  st.mongo.all fun r => r.num_chunks == countChunksWithPrefix st.pinecone r.category r.title

/-! ## Helper lemmas -/

theorem batchAux_flatten (bs : Nat) (hbs : 0 < bs) :
    ∀ (fuel : Nat) (l : List ChunkRecord), l.length ≤ fuel →
      (batchAux bs fuel l).flatten = l := by
  intro fuel
  induction fuel with
  | zero =>
    intro l hl
    have : l = [] := List.eq_nil_of_length_eq_zero (Nat.le_zero.mp hl)
    subst this
    rfl
  | succ fuel ih =>
    intro l hl
    cases l with
    | nil => rfl
    | cons a as =>
      have hrec : ((a :: as).drop bs).length ≤ fuel := by
        rw [List.length_drop]
        have h2 := hl
        rw [List.length_cons] at h2
        omega
      rw [batchAux, List.flatten_cons, ih _ hrec, List.take_append_drop]
      simp

theorem batchAux_mem_length (bs : Nat) :
    ∀ (fuel : Nat) (l : List ChunkRecord) (b : List ChunkRecord),
      b ∈ batchAux bs fuel l → b.length ≤ bs := by
  intro fuel
  induction fuel with
  | zero => intro l b hb; simp [batchAux] at hb
  | succ fuel ih =>
    intro l b hb
    cases l with
    | nil => simp [batchAux] at hb
    | cons a as =>
      have hb2 : b ∈ (a :: as).take bs :: batchAux bs fuel ((a :: as).drop bs) := by
        rw [batchAux] at hb
        · exact hb
        · simp
      rcases List.mem_cons.mp hb2 with h | h
      · subst h
        rw [List.length_take]
        exact Nat.min_le_left _ _
      · exact ih _ _ h

theorem chunkAux_snd_ge (m s : Nat) (t : List Char) :
    ∀ (fuel pos : Nat) (p : List Char × Nat), p ∈ chunkAux m s t fuel pos → pos ≤ p.2 := by
  intro fuel
  induction fuel with
  | zero => intro pos p hp; simp [chunkAux] at hp
  | succ fuel ih =>
    intro pos p hp
    rw [chunkAux] at hp
    by_cases h : pos < t.length
    · rw [if_pos h] at hp
      rcases List.mem_cons.mp hp with h1 | h1
      · subst h1; exact Nat.le_refl _
      · have := ih (pos + s) p h1
        omega
    · rw [if_neg h] at hp
      simp at hp

theorem chunkAux_pairwise (m s : Nat) (hs : 0 < s) (t : List Char) :
    ∀ (fuel pos : Nat), ((chunkAux m s t fuel pos).map Prod.snd).Pairwise (· < ·) := by
  intro fuel
  induction fuel with
  | zero => intro pos; simp [chunkAux]
  | succ fuel ih =>
    intro pos
    rw [chunkAux]
    by_cases h : pos < t.length
    · rw [if_pos h]
      rw [List.map_cons]
      refine List.Pairwise.cons ?_ (ih (pos + s))
      intro y hy
      rcases List.mem_map.mp hy with ⟨p, hp, hpy⟩
      have := chunkAux_snd_ge m s t fuel (pos + s) p hp
      omega
    · rw [if_neg h]
      simp

theorem chunkAux_fst_len (m s : Nat) (t : List Char) :
    ∀ (fuel pos : Nat) (p : List Char × Nat), p ∈ chunkAux m s t fuel pos →
      p.1.length ≤ m := by
  intro fuel
  induction fuel with
  | zero => intro pos p hp; simp [chunkAux] at hp
  | succ fuel ih =>
    intro pos p hp
    rw [chunkAux] at hp
    by_cases h : pos < t.length
    · rw [if_pos h] at hp
      rcases List.mem_cons.mp hp with h1 | h1
      · subst h1
        simp only [List.length_take]
        exact Nat.min_le_left _ _
      · exact ih _ p h1
    · rw [if_neg h] at hp
      simp at hp

/-! ## Claim theorems -/

/-- C1: the cross-store consistency invariant fails on the code.  A single
successful upload (`title="doc"`, `content="hi"`, `category="general"`, with
`PINECONE_NAMESPACE` unset) produces a document record with `num_chunks = 1`,
yet the `"general"` namespace holds no chunk with id prefix `"doc_"`: the
upload upserted into `"default"` because `upload_text_to_pinecone` derives
its namespace from the environment, not from `category`. -/
theorem upload_violates_cross_store_invariant :
    (upload_text_with_metadata ⟨[], []⟩ "doc" "hi" "general" "" "2026-10-12").1 =
      .ok { title := "doc", num_chunks := 1,
            pinecone_status := "Success", mongo_status := "Success" }
    ∧ crossStoreInvariant
        (upload_text_with_metadata ⟨[], []⟩ "doc" "hi" "general" "" "2026-10-12").2 = false := by
  constructor
  · rfl
  · rfl

/-- C2: the namespace `upload_text_to_pinecone` upserts into is determined
solely by the `PINECONE_NAMESPACE` environment value (with fallback
`"default"`); the `category` argument is ignored.  Concretely, uploading with
`category = "general"` and the environment unset places the chunk records in
namespace `"default"`, not `"general"`. -/
theorem upload_namespace_ignores_category :
    (∀ (st : PineconeState) (filename text category env : String),
        (upload_text_to_pinecone st filename text category env).namespaceUsed =
          (if env = "" then "default" else env))
    ∧ (upload_text_to_pinecone [] "doc" "hi" "general" "").namespaceUsed = "default"
    ∧ ((upload_text_to_pinecone [] "doc" "hi" "general" "").newState =
        [("default", { id := "doc_0", chunk_text := "hi", category := "general",
                       filename := "doc", chunk_index := 0, start_index := 0 })])
    ∧ (("default" : String) == "general") = false := by
  refine ⟨fun st filename text category env => rfl, rfl, rfl, rfl⟩

/-- C5: `delete_file_from_pinecone` (index present) submits exactly the id set
`{title}_0 .. {title}_{num_chunks-1}`, reports `deleted = true` exactly when
the delete call is accepted, and its reported outcome is independent of the
index contents — no membership verification happens. -/
theorem delete_reconstructs_ids_and_trusts_call (st st' : PineconeState) (filename : String)
    (numChunks : Nat) (category env : String) (accepted : Bool) :
    ((delete_file_from_pinecone st filename numChunks category env true accepted).2.idsSubmitted =
      (List.range numChunks).map (fun i => filename ++ "_" ++ toString i))
    ∧ ((delete_file_from_pinecone st filename numChunks category env true accepted).2.deleted =
        accepted)
    ∧ ((delete_file_from_pinecone st filename numChunks category env true accepted).2 =
       (delete_file_from_pinecone st' filename numChunks category env true accepted).2) := by
  unfold delete_file_from_pinecone
  cases accepted <;> simp

/-- C7: the Chunker (modelled from the spec, configuration `max_length =
1024`, `overlap = 50`): no produced segment exceeds 1024 characters, the
start offsets are strictly increasing, identical input yields an identical
sequence, and empty input yields the empty sequence. -/
theorem chunker_bounded_increasing_deterministic (t : List Char) :
    (∀ p ∈ chunkText 1024 50 t, p.1.length ≤ 1024)
    ∧ ((chunkText 1024 50 t).map Prod.snd).Pairwise (· < ·)
    ∧ (∀ t2 : List Char, t = t2 → chunkText 1024 50 t = chunkText 1024 50 t2)
    ∧ chunkText 1024 50 ([] : List Char) = [] := by
  refine ⟨?_, ?_, ?_, rfl⟩
  · intro p hp
    exact chunkAux_fst_len 1024 (1024 - 50) t t.length 0 p hp
  · exact chunkAux_pairwise 1024 (1024 - 50) (by norm_num) t t.length 0
  · intro t2 h
    rw [h]

/-- C7 witness: the chunker evaluated on the two-character text `"hi"`. -/
theorem chunker_bounded_increasing_deterministic_witness :
    (("hi".data, 0) ∈ chunkText 1024 50 "hi".data)
    ∧ ("hi".data, 0).1.length ≤ 1024
    ∧ ("hi".data = "hi".data)
    ∧ chunkText 1024 50 "hi".data = chunkText 1024 50 "hi".data :=
  ⟨by decide, (chunker_bounded_increasing_deterministic "hi".data).1 _ (by decide), rfl,
   (chunker_bounded_increasing_deterministic "hi".data).2.2.1 "hi".data rfl⟩

/-- C6: on upload, the record built for the chunk at zero-based position `i`
has id `"{title}_{i}"`; the batches are consecutive slices of at most 100
records whose concatenation is exactly the record list (order preserved, each
record once); the returned count equals the number of chunks the Chunker
produced. -/
theorem upload_ids_batches_count (st : PineconeState) (filename text category env : String) :
    (∀ (i : Nat) (h : i < (upload_text_to_pinecone st filename text category env).records.length),
        ((upload_text_to_pinecone st filename text category env).records.get ⟨i, h⟩).id =
          filename ++ "_" ++ toString i)
    ∧ ((upload_text_to_pinecone st filename text category env).batches.flatten =
        (upload_text_to_pinecone st filename text category env).records)
    ∧ (∀ b ∈ (upload_text_to_pinecone st filename text category env).batches, b.length ≤ 100)
    ∧ ((upload_text_to_pinecone st filename text category env).count =
        (chunkText 1024 50 text.data).length) := by
  refine ⟨?_, ?_, ?_, ?_⟩
  · intro i h
    simp only [upload_text_to_pinecone, mkRecords, List.get_eq_getElem, List.getElem_map]
    have hi : i < (chunkText 1024 50 text.data).enum.length := by
      simpa [upload_text_to_pinecone, mkRecords] using h
    rw [List.getElem_enum]
  · exact batchAux_flatten 100 (by norm_num) _ _ (Nat.le_refl _)
  · intro b hb
    exact batchAux_mem_length 100 _ _ b hb
  · simp [upload_text_to_pinecone, mkRecords]

/-- C6 witness: uploading `"hi"` under title `"doc"` yields one record with
id `"doc_0"`, a single batch of length 1, and count 1. -/
theorem upload_ids_batches_count_witness :
    (0 < (upload_text_to_pinecone [] "doc" "hi" "general" "").records.length)
    ∧ (((upload_text_to_pinecone [] "doc" "hi" "general" "").records.get
          ⟨0, by decide⟩).id = "doc" ++ "_" ++ toString 0)
    ∧ ((upload_text_to_pinecone [] "doc" "hi" "general" "").records ∈
        (upload_text_to_pinecone [] "doc" "hi" "general" "").batches)
    ∧ ((upload_text_to_pinecone [] "doc" "hi" "general" "").records.length ≤ 100) :=
  ⟨by decide,
   (upload_ids_batches_count [] "doc" "hi" "general" "").1 0 (by decide),
   by decide,
   (upload_ids_batches_count [] "doc" "hi" "general" "").2.2.1 _ (by decide)⟩

/-- C8: a query none of whose trigger keywords occurs (under the code's
membership test, `word in user_input.lower()`) makes `get_context` return
`None` with no search call issued — the query list is empty. -/
theorem no_trigger_no_search (search : SearchOracle) (k : Nat) (input : String)
    (h : ∀ w ∈ keywords, listContains w.data (lowerData input) = false) :
    get_context search k input = (.ok none, []) := by
  have h1 := h "rag" (by simp [keywords])
  have h2 := h "RAG" (by simp [keywords])
  simp [get_context, getContextLoop, keywords, h1, h2]

/-- C8 witness: the query `"hello"` triggers nothing; no search call is made
even against an oracle that would return a hit. -/
theorem no_trigger_no_search_witness :
    (∀ w ∈ keywords, listContains w.data (lowerData "hello") = false)
    ∧ get_context (fun _ _ => .ok [{ chunk_text := "x" }]) 0 "hello" = (.ok none, []) :=
  ⟨by decide, no_trigger_no_search (fun _ _ => .ok [{ chunk_text := "x" }]) 0 "hello" (by decide)⟩

/-- C3 counterexample: with a record for title `"t"` (content `"x"`) already
stored, a second upload of `"t"` with content `"y"` returns the 409 conflict,
yet the vector index afterwards holds the second upload's chunk (text `"y"`):
the conflict was detected only after the Pinecone upsert overwrote the first
upload's chunk, so the claim's conclusion fails. -/
theorem second_upload_conflict_cex :
    ((upload_text_with_metadata (upload_text_with_metadata ⟨[], []⟩ "t" "x" "c" "" "d1").2
        "t" "y" "c" "" "d2").1 =
      .error { status := 409, detail := "Note with title 't' already exists in MongoDB." })
    ∧ ((upload_text_with_metadata (upload_text_with_metadata ⟨[], []⟩ "t" "x" "c" "" "d1").2
          "t" "y" "c" "" "d2").2.pinecone =
        [("default", { id := "t_0", chunk_text := "y", category := "c",
                       filename := "t", chunk_index := 0, start_index := 0 })])
    ∧ ((upload_text_with_metadata ⟨[], []⟩ "t" "x" "c" "" "d1").2.pinecone =
        [("default", { id := "t_0", chunk_text := "x", category := "c",
                       filename := "t", chunk_index := 0, start_index := 0 })]) :=
  ⟨rfl, rfl, rfl⟩

/-- C3 amended: an upload whose title already has a document record fails
with a 409 ConflictError, but the conflict is detected at the document-store
insert only after the vector upsert has completed; the document store is
unchanged while the vector index holds the new upload's chunks (records with
the same ids overwritten). -/
theorem second_upload_conflict (st : SysState) (title content category env today : String)
    (hT : (pyStrip title).isEmpty = false) (hC : (pyStrip content).isEmpty = false)
    (hK : (pyStrip category).isEmpty = false)
    (hdup : st.mongo.any (fun r => r.title == title) = true) :
    upload_text_with_metadata st title content category env today =
      (.error { status := 409,
                detail := "Note with title '" ++ title ++ "' already exists in MongoDB." },
       { st with pinecone :=
           (upload_text_to_pinecone st.pinecone title content category env).newState }) := by
  unfold upload_text_with_metadata
  simp [hT, hC, hK, hdup]

/-- C3 witness: the amended theorem applied to a store already holding
title `"t"`. -/
theorem second_upload_conflict_witness :
    ((pyStrip "t").isEmpty = false)
    ∧ ((pyStrip "y").isEmpty = false)
    ∧ ((pyStrip "c").isEmpty = false)
    ∧ (([{ title := "t", content := "x", category := "c", date := "d1", num_chunks := 1 }] :
          List FileRec).any (fun r => r.title == "t") = true)
    ∧ (upload_text_with_metadata
        ⟨[{ title := "t", content := "x", category := "c", date := "d1", num_chunks := 1 }], []⟩
        "t" "y" "c" "" "d2" =
      (.error { status := 409, detail := "Note with title '" ++ "t" ++ "' already exists in MongoDB." },
       { mongo := [{ title := "t", content := "x", category := "c", date := "d1", num_chunks := 1 }],
         pinecone := (upload_text_to_pinecone [] "t" "y" "c" "").newState })) :=
  ⟨by decide, by decide, by decide, by decide,
   second_upload_conflict
     ⟨[{ title := "t", content := "x", category := "c", date := "d1", num_chunks := 1 }], []⟩
     "t" "y" "c" "" "d2" (by decide) (by decide) (by decide) (by decide)⟩

/-- C4 counterexample: a query containing the trigger `"rag"` against a
search collaborator returning zero hits makes `get_context` raise
(`hits[0]` IndexError) instead of returning `None`, and the whole `/chat`
request fails with that error instead of proceeding without context. -/
theorem context_error_fails_chat_cex :
    (get_context (fun _ _ => .ok []) 0 "tell me about rag" =
      (.error "IndexError: list index out of range", ["tell me about rag"]))
    ∧ (post_chat (fun _ _ => .ok []) (fun _ _ => "resp") true
        [{ role := "user", parts := ["tell me about rag"] }] [] =
      .error "IndexError: list index out of range") :=
  ⟨rfl, rfl⟩

/-- C4 amended: when the latest user text contains a trigger keyword and the
search call fails or returns zero hits, `get_context` raises (it does not
return `None`) and the error propagates out of `post_chat`, failing the chat
request; `None` is returned only on the no-trigger path. -/
theorem context_error_propagates (search : SearchOracle) (llm : LlmOracle) (logOk : Bool)
    (prompt : List Turn) (log : List (String × String)) (lastTurn : Turn) (u e : String)
    (hlast : prompt.getLast? = some lastTurn) (hparts : lastTurn.parts.head? = some u)
    (htrig : listContains "rag".data (lowerData u) = true)
    (hsearch : search 0 u = .error e ∨ search 0 u = .ok []) :
    (∃ e2, (get_context search 0 u).1 = .error e2)
    ∧ (∃ e2, post_chat search llm logOk prompt log = .error e2) := by
  have hg : ∃ e2, get_context search 0 u = (.error e2, [u]) := by
    rcases hsearch with h | h
    · exact ⟨e, by simp [get_context, getContextLoop, keywords, htrig, h]⟩
    · exact ⟨"IndexError: list index out of range",
             by simp [get_context, getContextLoop, keywords, htrig, h]⟩
  rcases hg with ⟨e2, hg⟩
  refine ⟨⟨e2, by rw [hg]⟩, ⟨e2, ?_⟩⟩
  simp [post_chat, hlast, hparts, chatContext, hg]

/-- C4 witness: the amended theorem applied to the query `"rag"` and a
zero-hit search collaborator. -/
theorem context_error_propagates_witness :
    (([{ role := "user", parts := ["rag"] }] : List Turn).getLast? =
      some { role := "user", parts := ["rag"] })
    ∧ (({ role := "user", parts := ["rag"] } : Turn).parts.head? = some "rag")
    ∧ (listContains "rag".data (lowerData "rag") = true)
    ∧ ((fun (_ : Nat) (_ : String) => (.ok [] : Except String (List Hit))) 0 "rag" = .error "x" ∨
       (fun (_ : Nat) (_ : String) => (.ok [] : Except String (List Hit))) 0 "rag" = .ok [])
    ∧ ((∃ e2, (get_context (fun _ _ => .ok []) 0 "rag").1 = .error e2)
       ∧ (∃ e2, post_chat (fun _ _ => .ok []) (fun _ _ => "resp") true
            [{ role := "user", parts := ["rag"] }] [] = .error e2)) :=
  ⟨rfl, rfl, by decide, Or.inr rfl,
   context_error_propagates (fun _ _ => .ok []) (fun _ _ => "resp") true
     [{ role := "user", parts := ["rag"] }] [] { role := "user", parts := ["rag"] } "rag" "x"
     rfl rfl (by decide) (Or.inr rfl)⟩

/-- A sample search collaborator whose first invocation returns a hit
`"first"` and every later invocation a hit `"second"`. -/
def sampleSearch : SearchOracle := fun k _ =>
  if k == 0 then .ok [{ chunk_text := "first" }] else .ok [{ chunk_text := "second" }]

/-- A sample model collaborator echoing the context it was given. -/
def sampleLlm : LlmOracle := fun _ c => c.getD "none"

/-- C9: whenever `post_chat` completes, the returned conversation is the
input conversation with exactly one assistant turn appended; and the
chat-log write outcome (`logOk`) changes neither the returned conversation
nor whether the request succeeds — the failure is swallowed. -/
theorem chat_appends_one_turn_log_invisible (search : SearchOracle) (llm : LlmOracle)
    (prompt : List Turn) (log : List (String × String)) :
    (∀ (logOk : Bool) (out : ChatOutcome),
        post_chat search llm logOk prompt log = .ok out →
        ∃ resp, out.conv = prompt ++ [{ role := "assistant", parts := [resp] }])
    ∧ ((post_chat search llm true prompt log).map ChatOutcome.conv =
       (post_chat search llm false prompt log).map ChatOutcome.conv) := by
  constructor
  · intro logOk out hout
    cases hL : prompt.getLast? with
    | none => simp [post_chat, hL] at hout
    | some lastTurn =>
      cases hP : lastTurn.parts.head? with
      | none => simp [post_chat, hL, hP] at hout
      | some u =>
        cases hCtx : chatContext search u with
        | error e => simp [post_chat, hL, hP, hCtx] at hout
        | ok cq =>
          obtain ⟨ctx, qs⟩ := cq
          have hpc : post_chat search llm logOk prompt log =
              .ok { conv := prompt ++ [{ role := "assistant", parts := [llm prompt ctx] }],
                    queries := qs,
                    chatLog := if logOk then log ++ [(u, llm prompt ctx)] else log } := by
            simp [post_chat, hL, hP, hCtx]
          rw [hpc] at hout
          refine ⟨llm prompt ctx, ?_⟩
          cases hout
          rfl
  · cases hL : prompt.getLast? with
    | none => simp [post_chat, hL]
    | some lastTurn =>
      cases hP : lastTurn.parts.head? with
      | none => simp [post_chat, hL, hP]
      | some u =>
        cases hCtx : chatContext search u with
        | error e => simp [post_chat, hL, hP, hCtx]
        | ok cq =>
          obtain ⟨ctx, qs⟩ := cq
          simp [post_chat, hL, hP, hCtx, Except.map]

/-- C9 witness: a chat request with no trigger keyword, evaluated against the
sample collaborators; the conversation gains exactly one assistant turn. -/
theorem chat_appends_one_turn_log_invisible_witness :
    (post_chat sampleSearch sampleLlm true [{ role := "user", parts := ["hi"] }] [] =
      .ok { conv := [{ role := "user", parts := ["hi"] },
                     { role := "assistant", parts := ["none"] }],
            queries := [], chatLog := [("hi", "none")] })
    ∧ (∃ resp, ([{ role := "user", parts := ["hi"] },
                 { role := "assistant", parts := ["none"] }] : List Turn) =
        [{ role := "user", parts := ["hi"] }] ++ [{ role := "assistant", parts := [resp] }]) :=
  ⟨rfl,
   (chat_appends_one_turn_log_invisible sampleSearch sampleLlm
      [{ role := "user", parts := ["hi"] }] []).1 true
     { conv := [{ role := "user", parts := ["hi"] },
                { role := "assistant", parts := ["none"] }],
       queries := [], chatLog := [("hi", "none")] }
     rfl⟩

/-- C10: when the latest user text contains a trigger keyword, the first
`get_context` call succeeds with a truthy (non-empty) first hit and the
second call succeeds as well, `post_chat` issues exactly two search calls
with the same query text, and the context handed to the language model is the
value returned by the second invocation. -/
theorem chat_searches_twice_uses_second (search : SearchOracle) (llm : LlmOracle)
    (logOk : Bool) (prompt : List Turn) (log : List (String × String)) (lastTurn : Turn)
    (u : String) (h0 h1 : Hit) (rest0 rest1 : List Hit)
    (hlast : prompt.getLast? = some lastTurn) (hparts : lastTurn.parts.head? = some u)
    (htrig : listContains "rag".data (lowerData u) = true)
    (hs0 : search 0 u = .ok (h0 :: rest0)) (hne : (h0.chunk_text == "") = false)
    (hs1 : search 1 u = .ok (h1 :: rest1)) :
    post_chat search llm logOk prompt log =
      .ok { conv := prompt ++ [{ role := "assistant",
                                 parts := [llm prompt (some h1.chunk_text)] }],
            queries := [u, u],
            chatLog := if logOk then log ++ [(u, llm prompt (some h1.chunk_text))] else log } := by
  have hg0 : get_context search 0 u = (.ok (some h0.chunk_text), [u]) := by
    simp [get_context, getContextLoop, keywords, htrig, hs0]
  have hg1 : get_context search 1 u = (.ok (some h1.chunk_text), [u]) := by
    simp [get_context, getContextLoop, keywords, htrig, hs1]
  have hcc : chatContext search u = .ok (some h1.chunk_text, [u, u]) := by
    simp [chatContext, hg0, hg1, hne]
  simp [post_chat, hlast, hparts, hcc]

/-- C10 witness: a triggered chat request against `sampleSearch` — the two
invocations return `"first"` and `"second"`, and the assistant turn echoes
the second. -/
theorem chat_searches_twice_uses_second_witness :
    (([{ role := "user", parts := ["rag q"] }] : List Turn).getLast? =
      some { role := "user", parts := ["rag q"] })
    ∧ (({ role := "user", parts := ["rag q"] } : Turn).parts.head? = some "rag q")
    ∧ (listContains "rag".data (lowerData "rag q") = true)
    ∧ (sampleSearch 0 "rag q" = .ok [{ chunk_text := "first" }])
    ∧ ((("first" : String) == "") = false)
    ∧ (sampleSearch 1 "rag q" = .ok [{ chunk_text := "second" }])
    ∧ (post_chat sampleSearch sampleLlm true [{ role := "user", parts := ["rag q"] }] [] =
        .ok { conv := [{ role := "user", parts := ["rag q"] }] ++
                [{ role := "assistant",
                   parts := [sampleLlm [{ role := "user", parts := ["rag q"] }] (some "second")] }],
              queries := ["rag q", "rag q"],
              chatLog := [("rag q",
                sampleLlm [{ role := "user", parts := ["rag q"] }] (some "second"))] }) :=
  ⟨rfl, rfl, by decide, rfl, by decide, rfl,
   chat_searches_twice_uses_second sampleSearch sampleLlm true
     [{ role := "user", parts := ["rag q"] }] [] { role := "user", parts := ["rag q"] } "rag q"
     { chunk_text := "first" } { chunk_text := "second" } [] []
     rfl rfl (by decide) rfl (by decide) rfl⟩

end RagModel
